import Mathlib

/-!
Verification of the wlclient core (package wlclient): a minimal Wayland
client. This file embeds the wire codec, the object id allocator, the
fixed-point conversions, the dispatch/registry state machine, the global
registry and the connect-time socket resolution as Lean definitions, each
translated from the corresponding Go function, and proves the specified
properties about them.

Conventions: wire bytes are naturals below 256 (values are reduced mod 256
where the codec writes them); Go strings appear as byte lists on the wire
path and as `String` in the connect path, matching how the source uses them.
-/

namespace Wlclient

/-- Encoding of binary.LittleEndian.PutUint32: four little-endian bytes of
the value reduced to 32 bits. -/
def u32le (n : Nat) : List Nat :=
  [n % 256, n / 256 % 256, n / 65536 % 256, n / 16777216 % 256]

/-- Decoding of binary.LittleEndian.Uint32: reads the first four bytes of
the slice little-endian. (The Go function panics on a slice shorter than
four bytes; no call site in scope reaches that case, modelled as 0.) -/
def le32 (bs : List Nat) : Nat :=
  match bs with
  | b0 :: b1 :: b2 :: b3 :: _ => b0 + 256 * b1 + 65536 * b2 + 16777216 * b3
  | _ => 0

/-- Zero padding the codec appends after a block of n bytes to reach a
32-bit boundary, as computed by `(4 - (n % 4)) % 4` in the source. -/
def pad4 (n : Nat) : Nat := (4 - n % 4) % 4

/-- The argument types accepted by Display.marshalArg: uint32, int32,
Fixed, string (payload bytes, without the NUL), byte array, a non-nil
Object reference (represented by the id its ID method returns), and the
untyped nil. Any other Go value makes marshalArg return an error; that
case is outside this inductive. -/
inductive Arg
  | u32 (v : Nat)
  | i32 (v : Int)
  | fixed (v : Int)
  | str (s : List Nat)
  | arr (a : List Nat)
  | obj (id : Nat)
  | null
deriving DecidableEq

/-- Display.marshalArg: per-type encoding into the request buffer. Signed
32-bit values are written in twos complement, hence the reduction of an
`Int` mod 2^32. -/
def marshalArg : Arg → List Nat
  | .u32 v => u32le v
  | .i32 v => u32le (v % 4294967296).toNat
  | .fixed v => u32le (v % 4294967296).toNat
  | .str s => u32le (s.length + 1) ++ s ++ [0] ++ List.replicate (pad4 (s.length + 1)) 0
  | .arr a => u32le a.length ++ a ++ List.replicate (pad4 a.length) 0
  | .obj i => u32le i
  | .null => u32le 0

/-- The body of a request frame: the marshaled arguments concatenated in
call order (the loop over args in Display.SendRequest). -/
def sendBody (args : List Arg) : List Nat :=
  (args.map marshalArg).flatten

/-- Display.SendRequest frame construction: an 8-byte header placeholder
is written first, the arguments follow, and the header is back-filled with
the object id (word 0) and `(size&0xffff)|opcode<<16` (word 1) where size
is the total buffer length including the header. -/
def sendFrame (objectID : Nat) (opcode : Nat) (args : List Arg) : List Nat :=
  u32le objectID ++
    u32le ((8 + (sendBody args).length) &&& 65535 ||| opcode <<< 16) ++
    sendBody args

theorem length_u32le (n : Nat) : (u32le n).length = 4 := rfl

theorem le32_u32le_append (n : Nat) (rest : List Nat) :
    le32 (u32le n ++ rest) = n % 4294967296 := by
  simp only [u32le, le32, List.cons_append, List.nil_append]
  omega

theorem frame_shape (o w : Nat) (body : List Nat) :
    (u32le o ++ u32le w ++ body).length = 8 + body.length ∧
    (u32le o ++ u32le w ++ body).drop 4 = u32le w ++ body ∧
    (u32le o ++ u32le w ++ body).drop 8 = body := by
  refine ⟨?_, by simp [u32le], by simp [u32le]⟩
  simp [u32le]
  omega

theorem length_marshalArg_mod4 (a : Arg) : (marshalArg a).length % 4 = 0 := by
  cases a <;>
    simp only [marshalArg, u32le, pad4, List.length_append, List.length_cons,
      List.length_replicate, List.length_nil] <;> omega

theorem length_sendBody_mod4 (args : List Arg) : (sendBody args).length % 4 = 0 := by
  induction args with
  | nil => rfl
  | cons a as ih =>
    have h := length_marshalArg_mod4 a
    simp only [sendBody, List.map_cons, List.flatten_cons, List.length_append] at *
    omega

/-- C3: every frame emitted by SendRequest with supported argument types is
well-formed: it is the 8-byte little-endian header followed by the marshaled
body, word 0 of the header is the target object id, word 1 is
`(opcode <<< 16) ||| total_byte_length` with the length counting the header,
and the body length is a multiple of 4 bytes. -/
theorem sendRequest_frame_wellformed (objectID opcode : Nat) (args : List Arg)
    (hobj : objectID < 4294967296) (hop : opcode < 65536)
    (hsz : 8 + (sendBody args).length < 65536) :
    (sendFrame objectID opcode args).length = 8 + (sendBody args).length ∧
    le32 (sendFrame objectID opcode args) = objectID ∧
    le32 ((sendFrame objectID opcode args).drop 4) =
      (opcode <<< 16 ||| (sendFrame objectID opcode args).length) ∧
    ((sendFrame objectID opcode args).drop 8).length % 4 = 0 ∧
    (sendFrame objectID opcode args).drop 8 = sendBody args := by
  obtain ⟨hL, hD4, hD8⟩ := frame_shape objectID
    ((8 + (sendBody args).length) &&& 65535 ||| opcode <<< 16) (sendBody args)
  rw [sendFrame]
  have hland : (8 + (sendBody args).length) &&& 65535 = 8 + (sendBody args).length := by
    rw [show (65535 : Nat) = 2 ^ 16 - 1 by norm_num]
    exact Nat.and_pow_two_sub_one_of_lt_two_pow (by norm_num at hsz ⊢; omega)
  have hshift : opcode <<< 16 < 4294967296 := by
    rw [Nat.shiftLeft_eq]
    have h16 : (2 : Nat) ^ 16 = 65536 := by norm_num
    rw [h16]
    omega
  have hlt : (opcode <<< 16 ||| (8 + (sendBody args).length)) < 4294967296 := by
    rw [show (4294967296 : Nat) = 2 ^ 32 by norm_num]
    exact Nat.or_lt_two_pow (by norm_num at hshift ⊢; omega) (by norm_num; omega)
  refine ⟨hL, ?_, ?_, ?_, hD8⟩
  · rw [List.append_assoc, le32_u32le_append, Nat.mod_eq_of_lt hobj]
  · rw [hD4, le32_u32le_append, hL, hland,
      Nat.lor_comm (8 + (sendBody args).length) (opcode <<< 16), Nat.mod_eq_of_lt hlt]
  · rw [hD8]
    exact length_sendBody_mod4 args

/-- Witness for C3 at a concrete frame: object id 1, opcode 0, one uint32
argument (the sync request of Roundtrip). -/
theorem sendRequest_frame_wellformed_witness :
    ((1 : Nat) < 4294967296 ∧ (0 : Nat) < 65536 ∧
      8 + (sendBody [Arg.u32 2]).length < 65536) ∧
    ((sendFrame 1 0 [Arg.u32 2]).length = 8 + (sendBody [Arg.u32 2]).length ∧
    le32 (sendFrame 1 0 [Arg.u32 2]) = 1 ∧
    le32 ((sendFrame 1 0 [Arg.u32 2]).drop 4) =
      (0 <<< 16 ||| (sendFrame 1 0 [Arg.u32 2]).length) ∧
    ((sendFrame 1 0 [Arg.u32 2]).drop 8).length % 4 = 0 ∧
    (sendFrame 1 0 [Arg.u32 2]).drop 8 = sendBody [Arg.u32 2]) :=
  ⟨⟨by decide, by decide, by decide⟩,
    sendRequest_frame_wellformed 1 0 [Arg.u32 2] (by decide) (by decide) (by decide)⟩

/-- Go conversion of a real value to an integer discards the fractional
part, truncating toward zero; on a rational num/den this is the truncating
integer division of the numerator by the denominator. -/
def truncTowardZero (q : ℚ) : Int := q.num.tdiv q.den

/-- Fixed is a 24.8 fixed-point number stored in an int32. The model keeps
an unbounded Int: the Go conversion float64 to int32 is only defined for
values representable in int32, which the range hypotheses of the theorems
below guarantee. -/
abbrev Fixed := Int

/-- NewFixed: `Fixed(v * 256.0)`, the truncation of v*256. Scaling a
float64 by 256 is exact, so the rational model loses nothing. -/
def NewFixed (v : ℚ) : Fixed := truncTowardZero (v * 256)

/-- Fixed.Float64: `float64(f) / 256.0`. -/
def Fixed.Float64 (f : Fixed) : ℚ := (f : ℚ) / 256

theorem tmod_natAbs_le {n d : Int} (hd : 0 < d) : |n.tmod d| ≤ d := by
  rw [abs_le]
  rcases le_or_lt 0 n with hn | hn
  · have h1 := Int.tmod_nonneg d hn
    have h2 := Int.tmod_lt_of_pos n hd
    omega
  · have hneg : n.tmod d = -((-n).tmod d) := by
      rw [Int.tmod_def, Int.tmod_def, Int.neg_tdiv]
      ring
    have h1 := Int.tmod_nonneg d (by omega : (0 : Int) ≤ -n)
    have h2 := Int.tmod_lt_of_pos (-n) hd
    rw [hneg]
    omega

theorem truncTowardZero_close (q : ℚ) : |(truncTowardZero q : ℚ) - q| ≤ 1 := by
  have hd : (0 : Int) < (q.den : Int) := Int.ofNat_pos.mpr q.den_pos
  have hkey := Int.tdiv_add_tmod q.num (q.den : Int)
  have hdq : ((q.den : Int) : ℚ) ≠ 0 := by
    exact_mod_cast (Nat.cast_ne_zero (R := ℚ)).mpr q.den_pos.ne.symm
  have hr := tmod_natAbs_le (n := q.num) hd
  have hq : ((q.num : Int) : ℚ) = q * ((q.den : Int) : ℚ) := by
    push_cast
    exact_mod_cast (Rat.mul_den_eq_num q).symm
  have hcast : ((q.den : Int) : ℚ) * ((q.num.tdiv (q.den : Int) : Int) : ℚ) +
      ((q.num.tmod (q.den : Int) : Int) : ℚ) = ((q.num : Int) : ℚ) := by
    exact_mod_cast congrArg (fun z : Int => (z : ℚ)) hkey
  have hmul : (((truncTowardZero q : Int) : ℚ) - q) * ((q.den : Int) : ℚ) =
      -((q.num.tmod (q.den : Int) : Int) : ℚ) := by
    rw [truncTowardZero]
    linear_combination hcast + hq
  have hval : ((truncTowardZero q : Int) : ℚ) - q =
      -(((q.num.tmod (q.den : Int) : Int) : ℚ) / ((q.den : Int) : ℚ)) := by
    rw [← neg_div, eq_div_iff hdq]
    exact hmul
  rw [hval, abs_neg, abs_div,
    abs_of_pos (by exact_mod_cast hd : (0 : ℚ) < ((q.den : Int) : ℚ)),
    div_le_one (by exact_mod_cast hd)]
  exact_mod_cast hr

/-- C5: for every value v representable in the 24.8 range, decoding the
fixed-point encoding of v (Fixed.Float64 applied to NewFixed v) is within
1/256 of v: the encoding truncates v*256 to a signed 32-bit integer and
decoding divides by 256. -/
theorem fixed_point_roundtrip (v : ℚ) (h1 : -(2 ^ 23) ≤ v) (h2 : v < 2 ^ 23) :
    |Fixed.Float64 (NewFixed v) - v| ≤ 1 / 256 := by
  have hclose := truncTowardZero_close (v * 256)
  have hval : Fixed.Float64 (NewFixed v) - v =
      ((truncTowardZero (v * 256) : ℚ) - v * 256) / 256 := by
    rw [Fixed.Float64, NewFixed]
    ring
  rw [hval, abs_div, abs_of_pos (by norm_num : (0 : ℚ) < 256)]
  rw [div_le_div_iff₀ (by norm_num) (by norm_num)]
  linarith

/-- Witness for C5 at v = 1/3: the encoding is 85 and 85/256 is within
1/256 of 1/3. -/
theorem fixed_point_roundtrip_witness :
    (-(2 ^ 23) ≤ (1 / 3 : ℚ) ∧ (1 / 3 : ℚ) < 2 ^ 23) ∧
    |Fixed.Float64 (NewFixed (1 / 3)) - 1 / 3| ≤ 1 / 256 :=
  ⟨⟨by norm_num, by norm_num⟩, fixed_point_roundtrip (1 / 3) (by norm_num) (by norm_num)⟩

/-- Display.allocateID: `atomic.AddUint32(&d.nextID, 1) - 1`. The state is
the current value of the 32-bit counter nextID; the call stores the wrapped
increment and returns the incremented value minus one in uint32 arithmetic.
Returns (allocated id, new counter value). -/
def allocateID (nextID : Nat) : Nat × Nat :=
  (((nextID + 1) % 4294967296 + 4294967295) % 4294967296, (nextID + 1) % 4294967296)

/-- The ids produced by n successive allocateID calls starting from a given
counter value. -/
def allocList : Nat → Nat → List Nat
  | _, 0 => []
  | st, n + 1 => (allocateID st).1 :: allocList (allocateID st).2 n

theorem allocList_eq (st n : Nat) (h : st + n ≤ 4294967296) :
    allocList st n = (List.range n).map (· + st) := by
  induction n generalizing st with
  | zero => rfl
  | succ k ih =>
    by_cases hedge : st + 1 = 4294967296
    · have hst : st = 4294967295 := by omega
      have hk : k = 0 := by omega
      subst hst hk
      rfl
    · have hlt : st + 1 < 4294967296 := by omega
      have hhead : (allocateID st).1 = st := by
        simp only [allocateID, Nat.mod_eq_of_lt hlt]
        omega
      have hstate : (allocateID st).2 = st + 1 := by
        simp only [allocateID, Nat.mod_eq_of_lt hlt]
      rw [allocList, hhead, hstate, ih (st + 1) (by omega), List.range_succ_eq_map]
      simp only [List.map_cons, List.map_map, Nat.zero_add]
      rw [show ((fun x => x + st) ∘ Nat.succ) = (fun x => x + (st + 1)) from by
        funext i
        simp [Function.comp, Nat.succ_eq_add_one]
        omega]

/-- C6: for every N with N + 2 within the 32-bit space, N sequential calls
to the id allocator of a fresh connection (counter initialised to 2 by
Connect) return N strictly increasing, pairwise-distinct ids, and the first
allocated id is 2. -/
theorem allocateID_monotone (N : Nat) (h : N + 2 ≤ 4294967296) :
    (allocList 2 N).Pairwise (· < ·) ∧ (allocList 2 N).length = N ∧
    (0 < N → (allocList 2 N).head? = some 2) := by
  rw [allocList_eq 2 N (by omega)]
  refine ⟨?_, by simp, ?_⟩
  · exact (List.pairwise_map.mpr ((List.pairwise_lt_range N).imp (by omega)))
  · intro hN
    obtain ⟨k, rfl⟩ : ∃ k, N = k + 1 := ⟨N - 1, by omega⟩
    rw [List.range_succ_eq_map]
    simp

/-- Witness for C6 at N = 3: the allocator yields 2, 3, 4. -/
theorem allocateID_monotone_witness :
    ((3 : Nat) + 2 ≤ 4294967296) ∧
    ((allocList 2 3).Pairwise (· < ·) ∧ (allocList 2 3).length = 3 ∧
      (0 < 3 → (allocList 2 3).head? = some 2)) :=
  ⟨by norm_num, allocateID_monotone 3 (by norm_num)⟩

/-- A parsed inbound frame: target object id, opcode and raw body, as
Display.Dispatch extracts them from the 8-byte header and the body read. -/
structure Frame where
  objectId : Nat
  opcode : Nat
  body : List Nat
deriving DecidableEq

/-- An error surfaced by Dispatch: the two malformed-bootstrap-event
errors, and the peer-reported protocol error with its faulting object id,
code and message bytes (the source wraps these in a formatted string
"protocol error: object %d, code %d: %s"). -/
inductive DErr
  | invalidErrorEvent
  | invalidDeleteIdEvent
  | protocol (obj : Nat) (code : Nat) (msg : List Nat)
deriving DecidableEq

/-- The connection state Dispatch touches: the object table (sync.Map
d.objects, kept as the list of stored ids), the listener table (sync.Map
d.listeners, flattened to (objectId, opcode, handler) triples in
registration order; handler callbacks are opaque and named by numbers),
and the recorded last protocol error with its code and object fields. -/
structure DState where
  objects : List Nat
  listeners : List (Nat × Nat × Nat)
  lastError : Option (Nat × Nat × List Nat)
  lastErrorCode : Nat
  lastErrorObj : Nat
deriving DecidableEq

/-- Display.AddListener: appends a handler for (objectID, opcode); the
flattened triple list preserves per-key registration order. -/
def addListener (s : DState) (objectID opcode handler : Nat) : DState :=
  { s with listeners := s.listeners ++ [(objectID, opcode, handler)] }

/-- The handlers registered for (objectID, opcode), in registration order
(the slice the dispatch loop iterates). -/
def handlersFor (ls : List (Nat × Nat × Nat)) (objectID opcode : Nat) : List Nat :=
  (ls.filter (fun e => e.1 == objectID && e.2.1 == opcode)).map (fun e => e.2.2)

/-- The outcome of one Dispatch call: the returned error (none is the nil
return), the connection state afterwards, and the handlers invoked. -/
structure DResult where
  res : Option DErr
  state : DState
  invoked : List Nat
deriving DecidableEq

/-- Display.handleDisplayEvent: opcode 0 is the error event (parses the
faulting object id, code and message, records them and returns the error),
opcode 1 is delete_id (removes the id from the object table). Any other
opcode on object 1 falls through and returns nil. -/
def handleDisplayEvent (s : DState) (opcode : Nat) (data : List Nat) : DResult :=
  if opcode = 0 then
    if data.length < 12 then ⟨some .invalidErrorEvent, s, []⟩
    else
      let objectID := le32 data
      let code := le32 (data.drop 4)
      let msgLen := le32 (data.drop 8)
      let message := if 0 < msgLen ∧ 12 + msgLen ≤ data.length
        then (data.drop 12).take (msgLen - 1) else []
      ⟨some (.protocol objectID code message),
        { s with lastError := some (objectID, code, message),
                 lastErrorCode := code, lastErrorObj := objectID }, []⟩
  else if opcode = 1 then
    if data.length < 4 then ⟨some .invalidDeleteIdEvent, s, []⟩
    else ⟨none, { s with objects := s.objects.filter (fun o => o != le32 data) }, []⟩
  else ⟨none, s, []⟩

/-- Display.Dispatch after one frame has been read: frames addressed to
object 1 go to handleDisplayEvent; any other frame invokes the handlers
registered under (objectId, opcode), in order, and returns nil. -/
def dispatchFrame (s : DState) (f : Frame) : DResult :=
  if f.objectId = 1 then handleDisplayEvent s f.opcode f.body
  else ⟨none, s, handlersFor s.listeners f.objectId f.opcode⟩

/-- The outcome of Display.Roundtrip draining a queue of inbound frames:
an error returned by Dispatch fails the roundtrip, dispatch of the sync
callback frame (callback object, opcode 0) completes it, and an exhausted
queue leaves the call blocked (starved). -/
inductive RtOutcome
  | completed
  | failed (e : DErr)
  | starved
deriving DecidableEq

/-- The Dispatch loop of Display.Roundtrip over a queue of frames, after
the one-shot listener for callbackID has been registered and the sync
request sent. -/
def roundtripRun (s : DState) (callbackID : Nat) : List Frame → RtOutcome
  | [] => .starved
  | f :: rest =>
    match (dispatchFrame s f).res with
    | some e => .failed e
    | none =>
      if f.objectId = callbackID ∧ f.opcode = 0 then .completed
      else roundtripRun (dispatchFrame s f).state callbackID rest

/-- C9: a well-formed frame addressed to an object other than the
bootstrap object for which no listener is registered under its
(objectId, opcode) is discarded: Dispatch returns nil, invokes no handler
and leaves the connection state unchanged. -/
theorem dispatch_unknown_object_noop (s : DState) (f : Frame)
    (hobj : f.objectId ≠ 1)
    (hnone : handlersFor s.listeners f.objectId f.opcode = []) :
    dispatchFrame s f = ⟨none, s, []⟩ := by
  rw [dispatchFrame, if_neg hobj, hnone]

/-- Witness for C9: a state with a listener under (2, 0) receiving a frame
for object 7, opcode 3, which has no listener. -/
theorem dispatch_unknown_object_noop_witness :
    ((7 : Nat) ≠ 1 ∧
      handlersFor (DState.mk [1, 2] [(2, 0, 0)] none 0 0).listeners 7 3 = []) ∧
    dispatchFrame (DState.mk [1, 2] [(2, 0, 0)] none 0 0) ⟨7, 3, []⟩ =
      ⟨none, DState.mk [1, 2] [(2, 0, 0)] none 0 0, []⟩ :=
  ⟨⟨by decide, by decide⟩,
    dispatch_unknown_object_noop (DState.mk [1, 2] [(2, 0, 0)] none 0 0) ⟨7, 3, []⟩
      (by decide) (by decide)⟩

/-- The wire body of an error event for object 42, code 3, message "oops"
(the message string: length 5 including the NUL, the bytes of "oops", the
NUL, and padding to a 4-byte boundary). -/
def errBody : List Nat :=
  u32le 42 ++ u32le 3 ++ u32le 5 ++ [111, 111, 112, 115, 0, 0, 0, 0]

/-- The bytes of "oops". -/
def oopsBytes : List Nat := [111, 111, 112, 115]

/-- C4: dispatching a frame addressed to the bootstrap object with the
error opcode and a body holding object 42, code 3 and message "oops"
returns the protocol error carrying object 42 and code 3, records it as
the connection last error (fields lastErrorObj 42 and lastErrorCode 3),
and a Roundtrip blocked dispatching that frame fails with the same error. -/
theorem error_event_propagation (s : DState) (callbackID : Nat) :
    dispatchFrame s ⟨1, 0, errBody⟩ =
      ⟨some (.protocol 42 3 oopsBytes),
        { s with lastError := some (42, 3, oopsBytes), lastErrorCode := 3,
                 lastErrorObj := 42 }, []⟩ ∧
    roundtripRun s callbackID [⟨1, 0, errBody⟩] =
      .failed (.protocol 42 3 oopsBytes) := by
  have hdisp : dispatchFrame s ⟨1, 0, errBody⟩ =
      ⟨some (.protocol 42 3 oopsBytes),
        { s with lastError := some (42, 3, oopsBytes), lastErrorCode := 3,
                 lastErrorObj := 42 }, []⟩ := by
    simp [dispatchFrame, handleDisplayEvent, errBody, u32le, le32, oopsBytes]
  refine ⟨hdisp, ?_⟩
  rw [roundtripRun, hdisp]

/-- The C2 counterexample state: objects 1 and 7 exist and handler 0 is
registered for object 7, opcode 0. -/
def cexState : DState := ⟨[1, 7], [(7, 0, 0)], none, 0, 0⟩

/-- C2 is false as stated: after Dispatch processes a delete_id event
naming object 7, the listener registered for 7 is still in the listener
table, and a later Dispatch of a frame for object 7 still invokes
handler 0. -/
theorem delete_id_claim_counterexample :
    (dispatchFrame cexState ⟨1, 1, u32le 7⟩).state.listeners = [(7, 0, 0)] ∧
    (dispatchFrame (dispatchFrame cexState ⟨1, 1, u32le 7⟩).state
      ⟨7, 0, []⟩).invoked = [0] := by
  decide

/-- C2 amended: processing a delete_id event removes only the object-table
entry for the named id: Dispatch returns nil and invokes nothing, the
object table drops the id, the listener table is unchanged, and a later
Dispatch of a frame for that object still invokes exactly the handlers
registered for it. -/
theorem delete_id_removes_object_keeps_listeners (s : DState) (body : List Nat)
    (op : Nat) (b2 : List Nat) (h4 : 4 ≤ body.length) (hX : le32 body ≠ 1) :
    dispatchFrame s ⟨1, 1, body⟩ =
      ⟨none, { s with objects := s.objects.filter (fun o => o != le32 body) }, []⟩ ∧
    (dispatchFrame s ⟨1, 1, body⟩).state.listeners = s.listeners ∧
    (dispatchFrame (dispatchFrame s ⟨1, 1, body⟩).state
      ⟨le32 body, op, b2⟩).invoked = handlersFor s.listeners (le32 body) op := by
  have hnot : ¬ body.length < 4 := by omega
  have h1 : dispatchFrame s ⟨1, 1, body⟩ =
      ⟨none, { s with objects := s.objects.filter (fun o => o != le32 body) }, []⟩ := by
    simp [dispatchFrame, handleDisplayEvent, hnot]
  refine ⟨h1, by rw [h1], ?_⟩
  rw [h1, dispatchFrame, if_neg hX]

/-- Witness for C2 (amended) on the counterexample state with the concrete
delete_id body for object 7. -/
theorem delete_id_removes_object_keeps_listeners_witness :
    (4 ≤ (u32le 7).length ∧ le32 (u32le 7) ≠ 1) ∧
    (dispatchFrame cexState ⟨1, 1, u32le 7⟩ =
      ⟨none, { cexState with
        objects := cexState.objects.filter (fun o => o != le32 (u32le 7)) }, []⟩ ∧
    (dispatchFrame cexState ⟨1, 1, u32le 7⟩).state.listeners = cexState.listeners ∧
    (dispatchFrame (dispatchFrame cexState ⟨1, 1, u32le 7⟩).state
      ⟨le32 (u32le 7), 0, []⟩).invoked =
        handlersFor cexState.listeners (le32 (u32le 7)) 0) :=
  ⟨⟨by decide, by decide⟩,
    delete_id_removes_object_keeps_listeners cexState (u32le 7) 0 []
      (by decide) (by decide)⟩

/-- A peer-advertised global: the Name, Interface and Version fields. -/
structure Global where
  name : Nat
  interface : List Nat
  version : Nat
deriving DecidableEq

/-- A Go map[uint32]Global modelled as an association list with at most
one live entry per key; assignment replaces the entry for the key and
delete removes it. Iteration order of a Go map is unspecified, so the
theorems below only use order-independent consequences. -/
def mapSet (m : List (Nat × Global)) (k : Nat) (v : Global) : List (Nat × Global) :=
  m.filter (fun e => e.1 != k) ++ [(k, v)]

/-- delete(m, k) on a Go map. -/
def mapDel (m : List (Nat × Global)) (k : Nat) : List (Nat × Global) :=
  m.filter (fun e => e.1 != k)

/-- Registry.handleGlobal: parses (name, interface length, interface
bytes, version) from the announce body and stores the global under its
name. The source reads the version at offset 8+ifaceLen, directly after
the NUL, without skipping the padding of the interface string. A body too
short for either check is ignored. -/
def handleGlobal (m : List (Nat × Global)) (data : List Nat) : List (Nat × Global) :=
  if data.length < 12 then m
  else
    let name := le32 data
    let ifaceLen := le32 (data.drop 4)
    if data.length < 12 + ifaceLen then m
    else
      mapSet m name
        ⟨name, (data.drop 8).take (ifaceLen - 1), le32 (data.drop (8 + ifaceLen))⟩

/-- Registry.handleGlobalRemove: parses the name and deletes its entry; a
body shorter than 4 bytes is ignored. -/
def handleGlobalRemove (m : List (Nat × Global)) (data : List Nat) : List (Nat × Global) :=
  if data.length < 4 then m else mapDel m (le32 data)

/-- Registry.FindGlobal: linear scan for the first global whose interface
matches; the not-found return (zero Global, false) is the none result. -/
def FindGlobal (m : List (Nat × Global)) (iface : List Nat) : Option Global :=
  (m.map (fun e => e.2)).find? (fun g => g.interface == iface)

/-- The wire body of a global-announce event for (name 5, interface "x",
version 1): name, interface length 2 (including the NUL), the byte of
"x", the NUL, two bytes of padding, then the version word. -/
def announceX : List Nat := u32le 5 ++ u32le 2 ++ [120, 0, 0, 0] ++ u32le 1

theorem mem_of_mem_mapDel_mapSet {m : List (Nat × Global)} {k : Nat}
    {v : Global} {e : Nat × Global} (he : e ∈ mapDel (mapSet m k v) k) :
    e ∈ m := by
  simp only [mapDel, mapSet, List.filter_append, List.mem_append,
    List.mem_filter] at he
  rcases he with ⟨⟨hem, _⟩, _⟩ | hbad
  · exact hem
  · exfalso
    revert hbad
    simp
    rintro rfl
    rfl

/-- C7: after a global-announce event for (name 5, interface "x",
version 1) and then a global-remove event for name 5 are processed,
FindGlobal on "x" reports not-found, provided no other global with
interface "x" is present. -/
theorem global_lifecycle_find_none (m : List (Nat × Global))
    (hother : ∀ e ∈ m, e.2.interface ≠ [120]) :
    FindGlobal (handleGlobalRemove (handleGlobal m announceX) (u32le 5)) [120] = none := by
  have hann : handleGlobal m announceX = mapSet m 5 ⟨5, [120], 65536⟩ := by
    simp [handleGlobal, announceX, u32le, le32]
  have hrem : handleGlobalRemove (mapSet m 5 ⟨5, [120], 65536⟩) (u32le 5) =
      mapDel (mapSet m 5 ⟨5, [120], 65536⟩) 5 := by
    simp [handleGlobalRemove, u32le, le32]
  rw [hann, hrem, FindGlobal, List.find?_eq_none]
  intro g hg
  simp only [List.mem_map] at hg
  obtain ⟨e, he, rfl⟩ := hg
  simpa using hother e (mem_of_mem_mapDel_mapSet he)

/-- Witness for C7 with an empty initial global map. -/
theorem global_lifecycle_find_none_witness :
    (∀ e ∈ ([] : List (Nat × Global)), e.2.interface ≠ [120]) ∧
    FindGlobal (handleGlobalRemove (handleGlobal [] announceX) (u32le 5)) [120] = none :=
  ⟨by simp, global_lifecycle_find_none [] (by simp)⟩

/-- The characters of "wayland-0", the default socket name. Go strings on
the connect path are modelled as character lists so that the theorems
stay kernel-computable. -/
def wayland0 : List Char := "wayland-0".data

/-- filepath.IsAbs on unix: the path starts with a slash. -/
def isAbs (p : List Char) : Bool :=
  match p with
  | [] => false
  | c :: _ => c == '/'

/-- filepath.Join of the runtime directory and the socket name. (The Go
function also cleans the joined path; for the names resolved here the
clean step never applies, and no theorem below depends on the joined
value.) -/
def pathJoin (dir name : List Char) : List Char := dir ++ '/' :: name

/-- What Connect does before any network I/O: either it reaches the
net.Dial call with a resolved unix socket path, or it returns the
connection error first (XDG_RUNTIME_DIR not set). -/
inductive ConnectAttempt
  | dial (path : List Char)
  | err
deriving DecidableEq

/-- The socket-path resolution at the top of Connect, as a function of the
socketPath argument and the environment; os.Getenv yields the empty string
for an unset variable. An empty socketPath falls back to WAYLAND_DISPLAY
and then to "wayland-0"; a relative result requires XDG_RUNTIME_DIR and is
joined under it, and the error return is taken before any dial. -/
def resolveSocket (socketPath : List Char) (env : String → List Char) : ConnectAttempt :=
  let path1 := if socketPath = [] then
      (if env "WAYLAND_DISPLAY" = [] then wayland0 else env "WAYLAND_DISPLAY")
    else socketPath
  if isAbs path1 then .dial path1
  else if env "XDG_RUNTIME_DIR" = [] then .err
  else .dial (pathJoin (env "XDG_RUNTIME_DIR") path1)

/-- C8: if the resolved socket name is not absolute and XDG_RUNTIME_DIR is
unset, Connect returns the connection error without reaching the dial. -/
theorem connect_no_runtime_dir_fails (socketPath : List Char) (env : String → List Char)
    (hrel : isAbs (if socketPath = [] then
      (if env "WAYLAND_DISPLAY" = [] then wayland0 else env "WAYLAND_DISPLAY")
      else socketPath) = false)
    (hxdg : env "XDG_RUNTIME_DIR" = []) :
    resolveSocket socketPath env = .err := by
  rw [resolveSocket]
  simp [hrel, hxdg]

/-- Witness for C8: no socket-name override and an entirely empty
environment. -/
theorem connect_no_runtime_dir_fails_witness :
    (isAbs (if ([] : List Char) = [] then
      (if (fun _ : String => ([] : List Char)) "WAYLAND_DISPLAY" = [] then wayland0
        else (fun _ : String => ([] : List Char)) "WAYLAND_DISPLAY")
      else []) = false ∧
      (fun _ : String => ([] : List Char)) "XDG_RUNTIME_DIR" = []) ∧
    resolveSocket [] (fun _ => []) = .err :=
  ⟨⟨by decide, rfl⟩, connect_no_runtime_dir_fails [] (fun _ => []) (by decide) rfl⟩

/-- C10: with an empty socket path, Connect takes the socket name from
WAYLAND_DISPLAY, defaulting to "wayland-0" when that is unset too, and
then applies the same absolute-path / runtime-directory resolution as for
an explicitly given name. -/
theorem connect_socket_name_defaulting (env : String → List Char) :
    resolveSocket [] env =
      resolveSocket (if env "WAYLAND_DISPLAY" = [] then wayland0
        else env "WAYLAND_DISPLAY") env := by
  by_cases hwd : env "WAYLAND_DISPLAY" = []
  · simp [resolveSocket, hwd, wayland0]
  · simp [resolveSocket, hwd]

/-- The buffer Registry.Bind assembles before sending: name, the
interface string with its length prefix (counting the NUL), the bytes,
the NUL and padding to a 4-byte boundary, then version and the new id. -/
def bindBuf (name : Nat) (iface : List Nat) (version newID : Nat) : List Nat :=
  u32le name ++ u32le (iface.length + 1) ++ iface ++ [0] ++
    List.replicate (pad4 (iface.length + 1)) 0 ++ u32le version ++ u32le newID

/-- Registry.Bind: allocates a new id from the display counter, assembles
bindBuf, and sends it through SendRequest as a single []byte argument
(opcode 0 on the registry object), returning the new id at once. The
result is (returned id, new counter value, frame written to the socket). -/
def registryBind (registryID nextID : Nat) (name : Nat) (iface : List Nat)
    (version : Nat) : Nat × Nat × List Nat :=
  ((allocateID nextID).1, (allocateID nextID).2,
    sendFrame registryID 0 [Arg.arr (bindBuf name iface version (allocateID nextID).1)])

/-- C1 fails on the code: on a fresh connection (registry id 2, counter at
3) binding (name 5, interface "x", version 1) allocates new id 3 and sends
a frame whose body is the byte-array marshaling of the assembled argument
buffer: a 4-byte length prefix holding 20, then the 20-byte concatenation
of the marshaled arguments (name, interface string, version, new id). The
claim states the body is exactly that concatenation; the extra length
prefix the []byte marshaling adds makes the sent body differ from it. -/
theorem bind_body_has_array_length_prefix :
    (registryBind 2 3 5 [120] 1).1 = 3 ∧
    ((registryBind 2 3 5 [120] 1).2.2).drop 8 =
      u32le 20 ++ ([Arg.u32 5, Arg.str [120], Arg.u32 1, Arg.u32 3].map marshalArg).flatten ∧
    ([Arg.u32 5, Arg.str [120], Arg.u32 1, Arg.u32 3].map marshalArg).flatten =
      bindBuf 5 [120] 1 3 ∧
    ((registryBind 2 3 5 [120] 1).2.2).drop 8 ≠
      ([Arg.u32 5, Arg.str [120], Arg.u32 1, Arg.u32 3].map marshalArg).flatten := by
  decide

end Wlclient
